import Mathlib

/-!
# krp-lambda-add-user: the registration handler

A shallow embedding of `main.go` (`Request`, `Response`, `User`, `HandleRequest`,
`errorResponse`) together with executable models of the library calls the handler makes:
`encoding/json` (`json.Marshal` on the value shapes the handler marshals), `fmt.Sprintf` with
`%d`, `time.Now().UTC().Format(time.RFC3339)`, `uuid.New().String()`, `os.Getenv` and
`dynamodb.Client.PutItem`.

Modelling choices:

* Go strings are Lean strings, that is sequences of Unicode scalar values: this is what the
  Lambda runtime hands to the handler after decoding the event. (On a Go string that is not
  valid UTF-8 `encoding/json` writes U+FFFD for each offending byte; such strings are outside
  this model.)
* Go `int` fields are `Int`; the handler does no arithmetic on them.
* What the handler reads from outside the request is gathered in `Env`: the identifier
  `uuid.New().String()` returns, the reading of the clock, the process environment and the
  behaviour of `PutItem`. `uuid.New` and the SDK client are taken to be available (the first
  panics only when the random source of the system fails, the second is built in `init`).
* The effect of the handler on the store is the list of `PutItem` calls it issues.
* Bodies are the exact text `json.Marshal` writes; `decode` reads such a text back, so that
  statements about members of a body are statements about that text.
-/

namespace AddUser

/-! ## Decimal rendering (`strconv.AppendInt _ 10`, `fmt.Sprintf("%d", _)`) -/

/-- The character of a decimal or hexadecimal digit, lower case as in Go's `hex` table. -/
def digitChar (n : Nat) : Char :=
  if n < 10 then Char.ofNat (48 + n) else Char.ofNat (87 + n)

/-- Decimal digits of `n` pushed in front of `acc`, most significant first. -/
def decimalAux : Nat → Nat → List Char → List Char
  | 0, _, acc => acc
  | fuel + 1, n, acc =>
    if n < 10 then digitChar n :: acc
    else decimalAux fuel (n / 10) (digitChar (n % 10) :: acc)

/-- Decimal rendering of a natural number. -/
def formatNat (n : Nat) : List Char := decimalAux (n + 1) n []

/-- Decimal rendering of a Go `int`: a minus sign for negative values, then the digits. -/
def formatInt (i : Int) : List Char :=
  if i < 0 then '-' :: formatNat i.natAbs else formatNat i.natAbs

/-- The Go expression `fmt.Sprintf("%d", i)`. -/
def sprintfD (i : Int) : String := String.mk (formatInt i)

/-! ## `encoding/json`: the encoder -/

/-- JSON scalars that occur in the handler's bodies: strings and integers. -/
inductive Scalar where
  | str (s : String)
  | num (i : Int)
  deriving DecidableEq, Repr

/-- JSON values that occur in the handler's bodies: a scalar or an object of scalars. -/
inductive Value where
  | scalar (v : Scalar)
  | object (members : List (String × Scalar))
  deriving DecidableEq, Repr

/-- A JSON document as the handler produces it: an object, members in emission order. -/
abbrev Document := List (String × Value)

/-- One rune of a string as `encoding/json` writes it with HTML escaping on (the default of
`json.Marshal`): quote and backslash are backslash-escaped, the five named control characters
use their short form, other characters below U+0020 and `<`, `>`, `&` become `\u00XX`, U+2028
and U+2029 become `\u202X`, every other rune is copied. (Backspace and form feed have their
short form since Go 1.22; earlier releases write `\u0008` and `\u000c`, which `decode` below
reads as the same runes.) -/
def escapeRune (c : Char) : List Char :=
  if c = '"' then ['\\', '"']
  else if c = '\\' then ['\\', '\\']
  else if c.toNat = 8 then ['\\', 'b']
  else if c.toNat = 12 then ['\\', 'f']
  else if c = '\n' then ['\\', 'n']
  else if c = '\r' then ['\\', 'r']
  else if c = '\t' then ['\\', 't']
  else if c.toNat < 32 ∨ c = '<' ∨ c = '>' ∨ c = '&' then
    ['\\', 'u', '0', '0', digitChar (c.toNat / 16), digitChar (c.toNat % 16)]
  else if c.toNat = 0x2028 ∨ c.toNat = 0x2029 then
    ['\\', 'u', '2', '0', '2', digitChar (c.toNat % 16)]
  else [c]

/-- The escaped contents of a string, without the surrounding quotes. -/
def escapeRunes : List Char → List Char
  | [] => []
  | c :: cs => escapeRune c ++ escapeRunes cs

/-- A JSON string literal (`appendString`). -/
def renderString (s : String) : List Char :=
  '"' :: (escapeRunes s.data ++ ['"'])

/-- A JSON scalar. -/
def renderScalar : Scalar → List Char
  | .str s => renderString s
  | .num i => formatInt i

/-- The members of an object, `"key":value` separated by commas. -/
def renderMembers {α : Type} (r : α → List Char) : List (String × α) → List Char
  | [] => []
  | [(k, v)] => renderString k ++ ':' :: r v
  | (k, v) :: m :: ms => renderString k ++ ':' :: (r v ++ ',' :: renderMembers r (m :: ms))

/-- A JSON object. -/
def renderObject {α : Type} (r : α → List Char) (ms : List (String × α)) : List Char :=
  '{' :: (renderMembers r ms ++ ['}'])

/-- A JSON value. -/
def renderValue : Value → List Char
  | .scalar v => renderScalar v
  | .object ms => renderObject renderScalar ms

/-- The compact text of a document. -/
def render (d : Document) : String := String.mk (renderObject renderValue d)

/-- Go map keys in the order `encoding/json` emits them: sorted, byte-wise (for UTF-8 this is
the order of the code points). -/
def keyLE {α : Type} (a b : String × α) : Prop := a.1.data ≤ b.1.data

instance {α : Type} : DecidableRel (keyLE (α := α)) :=
  fun a b => inferInstanceAs (Decidable (a.1.data ≤ b.1.data))

/-- The function `json.Marshal` applied to a Go map with string keys, given as its entries
whose values are already converted: the entries are written sorted by key. -/
def marshalMap (entries : List (String × Value)) : String :=
  render (entries.insertionSort keyLE)

/-! ## `time.Now().UTC().Format(time.RFC3339)` -/

/-- A number in decimal, left-padded with zeros to at least `width` digits (`appendInt`). -/
def padNat (width n : Nat) : List Char :=
  List.replicate (width - (formatNat n).length) '0' ++ formatNat n

/-- A calendar date and time of day in UTC. -/
structure Civil where
  year : Nat
  month : Nat
  day : Nat
  hour : Nat
  minute : Nat
  second : Nat
  deriving DecidableEq, Repr

/-- The proleptic Gregorian date and the time of day, in UTC, of the instant `unix` seconds
after 1970-01-01T00:00:00Z (what `Time.UTC` followed by `Time.Date` and `Time.Clock` give). -/
def civilOfUnix (unix : Nat) : Civil :=
  let days := unix / 86400
  let secs := unix % 86400
  let z := days + 719468
  let era := z / 146097
  let doe := z % 146097
  let yoe := (doe - doe / 1460 + doe / 36524 - doe / 146096) / 365
  let doy := doe - (365 * yoe + yoe / 4 - yoe / 100)
  let mp := (5 * doy + 2) / 153
  let d := doy - (153 * mp + 2) / 5 + 1
  let m := if mp < 10 then mp + 3 else mp - 9
  let y := yoe + era * 400
  { year := if m ≤ 2 then y + 1 else y, month := m, day := d,
    hour := secs / 3600, minute := secs % 3600 / 60, second := secs % 60 }

/-- The layout `time.RFC3339` (`2006-01-02T15:04:05Z07:00`) applied to a UTC time: the zone is
written `Z`. -/
def formatRFC3339 (c : Civil) : String :=
  String.mk (padNat 4 c.year ++ '-' :: padNat 2 c.month ++ '-' :: padNat 2 c.day ++
    'T' :: padNat 2 c.hour ++ ':' :: padNat 2 c.minute ++ ':' :: padNat 2 c.second ++ ['Z'])

/-! ## The data model of `main.go` -/

/-- The Go struct `Request`. -/
structure Request where
  Name : String
  PhoneNumber : String
  Email : String
  Age : Int
  deriving DecidableEq, Repr

/-- The Go struct `Response`; the header map is given by its entries. -/
structure Response where
  StatusCode : Int
  Body : String
  Headers : List (String × String)
  deriving DecidableEq, Repr

/-- The Go struct `User`. -/
structure User where
  ID : String
  Name : String
  PhoneNumber : String
  Email : String
  Age : Int
  Status : String
  CreatedAt : String
  deriving DecidableEq, Repr

/-- The two members of `types.AttributeValue` the handler builds: `AttributeValueMemberS` and
`AttributeValueMemberN`, each carrying its `Value` string. -/
inductive AttributeValue where
  | S (Value : String)
  | N (Value : String)
  deriving DecidableEq, Repr

/-- A Go `map[string]types.AttributeValue`, given by its entries (keys pairwise distinct). -/
abbrev Item := List (String × AttributeValue)

/-- The Go assignment `m[k] = v`: an entry with the same key is replaced. -/
def Item.set (m : Item) (k : String) (v : AttributeValue) : Item :=
  m.filter (fun e => decide (e.1 ≠ k)) ++ [(k, v)]

/-- The Go map read `m[k]`, with absence made explicit. -/
def Item.get (m : Item) (k : String) : Option AttributeValue :=
  (m.find? (fun e => decide (e.1 = k))).map Prod.snd

/-- The keys of a map. -/
def Item.keys (m : Item) : List String := m.map Prod.fst

/-- The fields of `dynamodb.PutItemInput` the handler sets. -/
structure PutItemInput where
  TableName : String
  Item : Item
  deriving DecidableEq, Repr

/-- What one invocation reads from outside the request: the identifier `uuid.New().String()`
returns, the reading of `time.Now()` in seconds since the Unix epoch, the process environment,
and the behaviour of `dynamoClient.PutItem` (`none` for a nil error, `some d` for an error
whose text is `d`). -/
structure Env where
  newUUID : String
  now : Nat
  environ : String → Option String
  putItem : PutItemInput → Option String

/-- The Go call `os.Getenv(key)`: the empty string when the variable is not set. -/
def Env.getenv (env : Env) (key : String) : String := (env.environ key).getD ""

/-- What an invocation of the handler yields: the returned pair of `Response` and `error`
(`none` for nil) and the `PutItem` calls it issued, in order. -/
structure Outcome where
  resp : Response
  err : Option String
  puts : List PutItemInput

/-! ## The handler -/

/-- The function `errorResponse` of `main.go`. -/
def errorResponse (code : Int) (msg : String) : Response × Option String :=
  ({ StatusCode := code
     Headers := [("Content-Type", "application/json")]
     Body := marshalMap [("error", .scalar (.str msg))] }, none)

/-- The `User` literal of `HandleRequest` (main.go lines 61 to 69). -/
def newUser (env : Env) (req : Request) : User :=
  { ID := env.newUUID
    Name := req.Name
    PhoneNumber := req.PhoneNumber
    Email := req.Email
    Age := req.Age
    Status := "active"
    CreatedAt := formatRFC3339 (civilOfUnix env.now) }

/-- The DynamoDB item `HandleRequest` prepares from the user (main.go lines 72 to 86). -/
def buildItem (user : User) : Item :=
  let item : Item :=
    [ ("id", .S user.ID),
      ("phone_number", .S user.PhoneNumber),
      ("name", .S user.Name),
      ("status", .S user.Status),
      ("created_at", .S user.CreatedAt) ]
  let item := if user.Email ≠ "" then item.set "email" (.S user.Email) else item
  let item := if user.Age > 0 then item.set "age" (.N (sprintfD user.Age)) else item
  item

/-- A `User` as `encoding/json` writes it: the fields in declaration order under the names of
their tags; `email` and `age` carry `omitempty` and are left out when they hold the zero value
of their type (the empty string, the integer 0). -/
def userValue (u : User) : Value :=
  .object
    ([("id", .str u.ID), ("name", .str u.Name), ("phone_number", .str u.PhoneNumber)]
      ++ (if u.Email = "" then [] else [("email", .str u.Email)])
      ++ (if u.Age = 0 then [] else [("age", .num u.Age)])
      ++ [("status", .str u.Status), ("created_at", .str u.CreatedAt)])

/-- A return statement of the handler together with the `PutItem` calls made before it. -/
def Outcome.returning (r : Response × Option String) (puts : List PutItemInput) : Outcome :=
  { resp := r.1, err := r.2, puts := puts }

/-- The function `HandleRequest` of `main.go`. The context argument is only handed on to
`PutItem`, whose behaviour is part of `env`. -/
def HandleRequest (env : Env) (req : Request) : Outcome :=
  if req.Name = "" then
    .returning (errorResponse 400 "name is required") []
  else if req.PhoneNumber = "" then
    .returning (errorResponse 400 "phone_number is required") []
  else
    let user := newUser env req
    let item := buildItem user
    let tableName := env.getenv "USERS_TABLE_NAME"
    if tableName = "" then
      .returning (errorResponse 500 "USERS_TABLE_NAME environment variable not set") []
    else
      let input : PutItemInput := { TableName := tableName, Item := item }
      match env.putItem input with
      | some e => .returning (errorResponse 500 ("failed to save user: " ++ e)) [input]
      | none =>
        .returning
          ({ StatusCode := 201
             Headers := [("Content-Type", "application/json")]
             Body := marshalMap [("message", .scalar (.str "User created successfully")),
                                 ("user", userValue user)] }, none)
          [input]

/-! ## Reading a body back: a decoder for the compact JSON the encoder writes -/

/-- The value of a hexadecimal digit. -/
def hexVal (c : Char) : Option Nat :=
  if 48 ≤ c.toNat ∧ c.toNat ≤ 57 then some (c.toNat - 48)
  else if 97 ≤ c.toNat ∧ c.toNat ≤ 102 then some (c.toNat - 87)
  else if 65 ≤ c.toNat ∧ c.toNat ≤ 70 then some (c.toNat - 55)
  else none

/-- The rune a `\uXXXX` escape stands for; surrogate halves are not accepted. -/
def hex4 (a b x y : Char) : Option Char :=
  match hexVal a, hexVal b, hexVal x, hexVal y with
  | some a, some b, some x, some y =>
    let n := ((a * 16 + b) * 16 + x) * 16 + y
    if n.isValidChar then some (Char.ofNat n) else none
  | _, _, _, _ => none

/-- The rune a two-character escape stands for. -/
def unescapeShort (e : Char) : Option Char :=
  if e = '"' then some '"'
  else if e = '\\' then some '\\'
  else if e = '/' then some '/'
  else if e = 'b' then some (Char.ofNat 8)
  else if e = 'f' then some (Char.ofNat 12)
  else if e = 'n' then some '\n'
  else if e = 'r' then some '\r'
  else if e = 't' then some '\t'
  else none

/-- Reads the contents of a string literal, the opening quote already consumed, up to and
including the closing quote; gives the runes read and the rest of the text. -/
def readRunes : List Char → Option (List Char × List Char)
  | [] => none
  | c :: cs =>
    if c = '"' then some ([], cs)
    else if c = '\\' then
      match cs with
      | [] => none
      | e :: rest =>
        if e = 'u' then
          match rest with
          | a :: b :: x :: y :: rest4 =>
            match hex4 a b x y, readRunes rest4 with
            | some r, some (s, t) => some (r :: s, t)
            | _, _ => none
          | _ => none
        else
          match unescapeShort e, readRunes rest with
          | some r, some (s, t) => some (r :: s, t)
          | _, _ => none
    else if c.toNat < 32 then none
    else
      match readRunes cs with
      | some (s, t) => some (c :: s, t)
      | none => none

/-- Reads a string literal. -/
def readString : List Char → Option (String × List Char)
  | [] => none
  | c :: cs =>
    if c = '"' then
      match readRunes cs with
      | some (s, t) => some (String.mk s, t)
      | none => none
    else none

/-- Reads an unsigned decimal number: the longest run of digits, which must not be empty. -/
def readNat (cs : List Char) : Option (Nat × List Char) :=
  match cs.takeWhile Char.isDigit with
  | [] => none
  | d :: ds => some ((d :: ds).foldl (fun a c => a * 10 + (c.toNat - 48)) 0,
      cs.dropWhile Char.isDigit)

/-- Reads an integer: an optional minus sign, then an unsigned number. -/
def readInt : List Char → Option (Int × List Char)
  | [] => none
  | c :: cs =>
    if c = '-' then
      match readNat cs with
      | some (n, t) => some (-(n : Int), t)
      | none => none
    else
      match readNat (c :: cs) with
      | some (n, t) => some ((n : Int), t)
      | none => none

/-- Reads a scalar: a string literal when the text starts with a quote, else an integer. -/
def readScalar : List Char → Option (Scalar × List Char)
  | [] => none
  | c :: cs =>
    if c = '"' then
      match readString (c :: cs) with
      | some (s, t) => some (.str s, t)
      | none => none
    else
      match readInt (c :: cs) with
      | some (i, t) => some (.num i, t)
      | none => none

/-- Reads the members of a non-empty object up to and including the closing brace; `p` reads
one value. The fuel bounds the number of members. -/
def readMembers {α : Type} (p : List Char → Option (α × List Char)) :
    Nat → List Char → Option (List (String × α) × List Char)
  | 0, _ => none
  | fuel + 1, cs =>
    match readString cs with
    | none => none
    | some (k, cs1) =>
      match cs1 with
      | [] => none
      | c :: cs2 =>
        if c = ':' then
          match p cs2 with
          | none => none
          | some (v, cs3) =>
            match cs3 with
            | [] => none
            | d :: cs4 =>
              if d = '}' then some ([(k, v)], cs4)
              else if d = ',' then
                match readMembers p fuel cs4 with
                | some (ms, t) => some ((k, v) :: ms, t)
                | none => none
              else none
        else none

/-- Reads an object whose values are read by `p`. -/
def readObject {α : Type} (p : List Char → Option (α × List Char)) :
    List Char → Option (List (String × α) × List Char)
  | [] => none
  | c :: cs =>
    if c = '{' then
      match cs with
      | [] => none
      | d :: cs1 => if d = '}' then some ([], cs1) else readMembers p cs.length cs
    else none

/-- Reads a value: an object of scalars when the text starts with a brace, else a scalar. -/
def readValue : List Char → Option (Value × List Char)
  | [] => none
  | c :: cs =>
    if c = '{' then
      match readObject readScalar (c :: cs) with
      | some (ms, t) => some (.object ms, t)
      | none => none
    else
      match readScalar (c :: cs) with
      | some (v, t) => some (.scalar v, t)
      | none => none

/-- Decodes a body: the whole text must be one object. -/
def decode (body : String) : Option Document :=
  match readObject readValue body.data with
  | some (d, []) => some d
  | _ => none

/-! ## Reading fields of a decoded body -/

/-- The value of the member `k` of a document, when it has one. -/
def Document.field (d : Document) (k : String) : Option Value :=
  (d.find? (fun e => decide (e.1 = k))).map Prod.snd

/-- The value of the member `k` of an object value, when it has one. -/
def Value.member : Value → String → Option Scalar
  | .object ms, k => (ms.find? (fun e => decide (e.1 = k))).map Prod.snd
  | .scalar _, _ => none

/-- The member names of an object value. -/
def Value.keys : Value → List String
  | .object ms => ms.map Prod.fst
  | .scalar _ => []

/-- The member `k` of the JSON object a body holds. -/
def bodyField (body : String) (k : String) : Option Value :=
  (decode body).bind (fun d => d.field k)

/-- The member `k` of the `"user"` object of a body. -/
def userField (body : String) (k : String) : Option Scalar :=
  (bodyField body "user").bind (fun v => v.member k)

/-- The member names of the `"user"` object of a body. -/
def userKeys (body : String) : List String :=
  ((bodyField body "user").map Value.keys).getD []

/-- The `PutItem` calls of an invocation that reported success. -/
def Outcome.successfulPuts (env : Env) (out : Outcome) : List PutItemInput :=
  out.puts.filter (fun p => (env.putItem p).isNone)

/-! ## Concrete inputs -/

/-- An environment in which the table is configured and every put succeeds. -/
def sampleEnv : Env :=
  { newUUID := "123e4567-e89b-42d3-a456-426614174000"
    now := 1763380800
    environ := fun k => if k = "USERS_TABLE_NAME" then some "test-users-table" else none
    putItem := fun _ => none }

/-- An environment in which the table is configured and every put fails. -/
def failingEnv : Env :=
  { sampleEnv with putItem := fun _ => some "ResourceNotFoundException: no such table" }

/-- An environment in which `USERS_TABLE_NAME` is not set. -/
def unconfiguredEnv : Env :=
  { sampleEnv with environ := fun _ => none }

/-- The request of the spec's example: required fields only. -/
def sampleRequest : Request :=
  { Name := "Ana", PhoneNumber := "+5511999999999", Email := "", Age := 0 }

/-- A request with every field supplied. -/
def fullRequest : Request :=
  { Name := "Maria Santos", PhoneNumber := "+5511888888888", Email := "maria@example.com",
    Age := 30 }

/-- A request with a negative age. -/
def negativeAgeRequest : Request :=
  { Name := "Ana", PhoneNumber := "+5511999999999", Email := "", Age := -1 }

/-- The empty request of the repository's test table. -/
def emptyRequest : Request :=
  { Name := "", PhoneNumber := "", Email := "", Age := 0 }

/-- The request of the repository's test table that lacks a phone number. -/
def noPhoneRequest : Request :=
  { Name := "João Silva", PhoneNumber := "", Email := "", Age := 0 }

/-- The put the handler issues for `fullRequest` in `sampleEnv`. -/
def fullRequestPut : PutItemInput :=
  { TableName := "test-users-table"
    Item := [("id", .S "123e4567-e89b-42d3-a456-426614174000"),
             ("phone_number", .S "+5511888888888"),
             ("name", .S "Maria Santos"),
             ("status", .S "active"),
             ("created_at", .S "2025-11-17T12:00:00Z"),
             ("email", .S "maria@example.com"),
             ("age", .N "30")] }

/-! ## Auxiliary notions for the lemmas -/

/-- What reading makes of one more rune in front of the text read. -/
def consRune (c : Char) : Option (List Char × List Char) → Option (List Char × List Char)
  | some (s, t) => some (c :: s, t)
  | none => none

/-- The number a run of decimal digits denotes. -/
def digitsValue (ds : List Char) : Nat := ds.foldl (fun a c => a * 10 + (c.toNat - 48)) 0

/-- The text that follows a number does not start with a digit. -/
def NoDigitAhead (t : List Char) : Prop := ∀ c tl, t = c :: tl → c.isDigit = false

/-- The text that follows a member's value: a comma or the closing brace of the object. -/
def Delimited (t : List Char) : Prop := ∃ tl, t = ',' :: tl ∨ t = '}' :: tl

/-! ## Lemmas: strings are read back as written -/

theorem readRunes_quote (tl : List Char) : readRunes ('"' :: tl) = some ([], tl) := by
  rw [readRunes.eq_def]; simp

theorem readRunes_short (e : Char) (tl : List Char) (h : e ≠ 'u') :
    readRunes ('\\' :: e :: tl) =
      match unescapeShort e, readRunes tl with
      | some r, some (s, t) => some (r :: s, t)
      | _, _ => none := by
  rw [readRunes.eq_def]; simp [h]

theorem readRunes_hex (a b x y : Char) (tl : List Char) :
    readRunes ('\\' :: 'u' :: a :: b :: x :: y :: tl) =
      match hex4 a b x y, readRunes tl with
      | some r, some (s, t) => some (r :: s, t)
      | _, _ => none := by
  rw [readRunes.eq_def]; simp

theorem readRunes_plain (c : Char) (tl : List Char) (h1 : c ≠ '"') (h2 : c ≠ '\\')
    (h3 : ¬ c.toNat < 32) : readRunes (c :: tl) = consRune c (readRunes tl) := by
  rw [readRunes.eq_def]; simp [h1, h2, h3]
  cases readRunes tl <;> simp [consRune]

theorem hex4_low : ∀ n, n < 64 →
    hex4 '0' '0' (digitChar (n / 16)) (digitChar (n % 16)) = some (Char.ofNat n) := by
  decide

theorem char_eq_of_toNat {c : Char} {n : Nat} (h : c.toNat = n) : c = Char.ofNat n := by
  rw [← h, Char.ofNat_toNat]

theorem readRunes_shortEscape (e r : Char) (tl : List Char) (hu : e ≠ 'u')
    (he : unescapeShort e = some r) :
    readRunes ('\\' :: e :: tl) = consRune r (readRunes tl) := by
  rw [readRunes_short _ _ hu, he]
  cases readRunes tl <;> simp [consRune]

theorem readRunes_hexEscape (a b x y r : Char) (tl : List Char) (he : hex4 a b x y = some r) :
    readRunes ('\\' :: 'u' :: a :: b :: x :: y :: tl) = consRune r (readRunes tl) := by
  rw [readRunes_hex, he]
  cases readRunes tl <;> simp [consRune]

theorem readRunes_escapeRune (c : Char) (tl : List Char) :
    readRunes (escapeRune c ++ tl) = consRune c (readRunes tl) := by
  unfold escapeRune
  split_ifs with h1 h2 h3 h4 h5 h6 h7 h8 h9
  · subst h1
    exact readRunes_shortEscape _ _ tl (by decide) (by decide)
  · subst h2
    exact readRunes_shortEscape _ _ tl (by decide) (by decide)
  · obtain rfl := char_eq_of_toNat h3
    exact readRunes_shortEscape _ _ tl (by decide) (by decide)
  · obtain rfl := char_eq_of_toNat h4
    exact readRunes_shortEscape _ _ tl (by decide) (by decide)
  · subst h5
    exact readRunes_shortEscape _ _ tl (by decide) (by decide)
  · subst h6
    exact readRunes_shortEscape _ _ tl (by decide) (by decide)
  · subst h7
    exact readRunes_shortEscape _ _ tl (by decide) (by decide)
  · have hlt : c.toNat < 64 := by
      rcases h8 with h | rfl | rfl | rfl
      · omega
      all_goals decide
    have := hex4_low c.toNat hlt
    rw [Char.ofNat_toNat] at this
    exact readRunes_hexEscape _ _ _ _ _ tl this
  · rcases h9 with h | h
    · obtain rfl := char_eq_of_toNat h
      exact readRunes_hexEscape _ _ _ _ _ tl (by decide)
    · obtain rfl := char_eq_of_toNat h
      exact readRunes_hexEscape _ _ _ _ _ tl (by decide)
  · have h32 : ¬ c.toNat < 32 := fun h => h8 (Or.inl h)
    simpa using readRunes_plain c tl h1 h2 h32

theorem readRunes_escapeRunes (s tl : List Char) :
    readRunes (escapeRunes s ++ '"' :: tl) = some (s, tl) := by
  induction s with
  | nil => simpa [escapeRunes] using readRunes_quote tl
  | cons c cs ih =>
    rw [escapeRunes, List.append_assoc, readRunes_escapeRune, ih]
    rfl

theorem readString_renderString (s : String) (tl : List Char) :
    readString (renderString s ++ tl) = some (s, tl) := by
  simp [renderString, readString, readRunes_escapeRunes]

/-! ## Lemmas: numbers are read back as written -/

theorem digitChar_spec : ∀ d, d < 10 →
    (digitChar d).isDigit = true ∧ (digitChar d).toNat - 48 = d := by
  decide

theorem decimalAux_append (fuel n : Nat) (acc : List Char) :
    decimalAux fuel n acc = decimalAux fuel n [] ++ acc := by
  induction fuel generalizing n acc with
  | zero => simp [decimalAux]
  | succ f ih =>
    simp only [decimalAux]
    split_ifs
    · simp
    · rw [ih (n / 10) (digitChar (n % 10) :: acc), ih (n / 10) [digitChar (n % 10)]]
      simp

theorem decimalAux_digits (fuel n : Nat) :
    ∀ c ∈ decimalAux fuel n [], c.isDigit = true := by
  induction fuel generalizing n with
  | zero => simp [decimalAux]
  | succ f ih =>
    intro c hc
    simp only [decimalAux] at hc
    split_ifs at hc with h
    · simp only [List.mem_singleton] at hc
      subst hc
      exact (digitChar_spec n h).1
    · rw [decimalAux_append] at hc
      simp only [List.mem_append, List.mem_singleton] at hc
      rcases hc with hc | rfl
      · exact ih _ c hc
      · exact (digitChar_spec (n % 10) (Nat.mod_lt _ (by decide))).1

theorem digitsValue_decimalAux (fuel n : Nat) (h : n < fuel) :
    digitsValue (decimalAux fuel n []) = n := by
  induction fuel generalizing n with
  | zero => omega
  | succ f ih =>
    simp only [decimalAux]
    split_ifs with h10
    · simp [digitsValue, (digitChar_spec n h10).2]
    · rw [decimalAux_append]
      have hlt : n / 10 < f := by omega
      have := ih (n / 10) hlt
      simp only [digitsValue] at this
      simp only [digitsValue, List.foldl_append, List.foldl_cons, List.foldl_nil, this,
        (digitChar_spec (n % 10) (Nat.mod_lt _ (by decide))).2]
      omega

theorem formatNat_ne_nil (n : Nat) : formatNat n ≠ [] := by
  simp only [formatNat, decimalAux]
  split_ifs
  · simp
  · rw [decimalAux_append]; simp

theorem readNat_formatNat (n : Nat) (t : List Char) (ht : NoDigitAhead t) :
    readNat (formatNat n ++ t) = some (n, t) := by
  have hd : ∀ c ∈ formatNat n, c.isDigit = true := decimalAux_digits _ _
  have htake : (formatNat n ++ t).takeWhile Char.isDigit = formatNat n := by
    rw [List.takeWhile_append_of_pos hd]
    cases t with
    | nil => simp
    | cons c tl => simp [List.takeWhile_cons, ht c tl rfl]
  have hdrop : (formatNat n ++ t).dropWhile Char.isDigit = t := by
    rw [List.dropWhile_append_of_pos hd]
    cases t with
    | nil => simp
    | cons c tl => simp [List.dropWhile_cons, ht c tl rfl]
  have hval : digitsValue (formatNat n) = n := digitsValue_decimalAux _ _ (Nat.lt_succ_self n)
  unfold readNat
  rw [htake, hdrop]
  cases hf : formatNat n with
  | nil => exact absurd hf (formatNat_ne_nil n)
  | cons d ds =>
    rw [hf] at hval
    simp only [digitsValue] at hval
    simp [hval]

theorem formatNat_head (n : Nat) : ∃ d ds, formatNat n = d :: ds ∧ d.isDigit = true := by
  cases hf : formatNat n with
  | nil => exact absurd hf (formatNat_ne_nil n)
  | cons d ds =>
    refine ⟨d, ds, rfl, ?_⟩
    have := decimalAux_digits (n + 1) n d
    rw [← formatNat, hf] at this
    exact this (List.mem_cons_self _ _)

theorem readInt_formatInt (i : Int) (t : List Char) (ht : NoDigitAhead t) :
    readInt (formatInt i ++ t) = some (i, t) := by
  unfold formatInt
  split_ifs with hneg
  · simp only [List.cons_append, readInt, if_true, readNat_formatNat _ t ht]
    congr 2
    omega
  · obtain ⟨d, ds, hf, hdig⟩ := formatNat_head i.natAbs
    have hne : d ≠ '-' := by
      rintro rfl
      exact absurd hdig (by decide)
    have := readNat_formatNat i.natAbs t ht
    rw [hf] at this ⊢
    simp only [List.cons_append, readInt, if_neg hne] at this ⊢
    rw [this]
    have : (i.natAbs : Int) = i := Int.natAbs_of_nonneg (by omega)
    simp [this]

theorem readScalar_renderScalar (v : Scalar) (t : List Char) (ht : NoDigitAhead t) :
    readScalar (renderScalar v ++ t) = some (v, t) := by
  cases v with
  | str s =>
    have := readString_renderString s t
    simp only [renderScalar]
    simp only [renderString, List.cons_append, List.append_assoc, List.singleton_append,
      List.nil_append] at this ⊢
    rw [readScalar, if_pos rfl, this]
  | num i =>
    have := readInt_formatInt i t ht
    simp only [renderScalar]
    cases hf : formatInt i ++ t with
    | nil => rw [hf] at this; simp [readInt] at this
    | cons c cs =>
      rw [hf] at this
      have hne : c ≠ '"' := by
        rintro rfl
        unfold formatInt at hf
        obtain ⟨d, ds, hd, hdig⟩ := formatNat_head i.natAbs
        split_ifs at hf
        · simp at hf
        · rw [hd] at hf
          simp only [List.cons_append, List.cons.injEq] at hf
          rw [hf.1] at hdig
          exact absurd hdig (by decide)
      simp [readScalar, hne, this]

/-! ## Lemmas: documents are read back as written -/

theorem Delimited.noDigitAhead {t : List Char} (h : Delimited t) : NoDigitAhead t := by
  rintro c tl rfl
  obtain ⟨tl', h | h⟩ := h
  · obtain ⟨rfl, -⟩ := List.cons.inj h
    decide
  · obtain ⟨rfl, -⟩ := List.cons.inj h
    decide

theorem readMembers_step {α : Type} (p : List Char → Option (α × List Char))
    (r : α → List Char) (hp : ∀ v t, Delimited t → p (r v ++ t) = some (v, t))
    (fuel : Nat) (k : String) (v : α) (d : Char) (t : List Char)
    (hd : Delimited (d :: t)) :
    readMembers p (fuel + 1) (renderString k ++ ':' :: (r v ++ d :: t)) =
      if d = '}' then some ([(k, v)], t)
      else if d = ',' then
        match readMembers p fuel t with
        | some (ms, t') => some ((k, v) :: ms, t')
        | none => none
      else none := by
  rw [readMembers, readString_renderString]
  simp only [if_true, hp v (d :: t) hd]

theorem readMembers_renderMembers {α : Type} (p : List Char → Option (α × List Char))
    (r : α → List Char) (hp : ∀ v t, Delimited t → p (r v ++ t) = some (v, t))
    (ms : List (String × α)) (hne : ms ≠ []) (fuel : Nat) (hf : ms.length ≤ fuel)
    (t : List Char) :
    readMembers p fuel (renderMembers r ms ++ '}' :: t) = some (ms, t) := by
  induction ms generalizing fuel with
  | nil => exact absurd rfl hne
  | cons m ms ih =>
    obtain ⟨k, v⟩ := m
    cases fuel with
    | zero => simp at hf
    | succ f =>
      cases ms with
      | nil =>
        simp only [renderMembers, List.append_assoc, List.cons_append]
        rw [readMembers_step p r hp f k v '}' t ⟨t, Or.inr rfl⟩]
        simp
      | cons m' ms' =>
        simp only [renderMembers, List.append_assoc, List.cons_append]
        rw [readMembers_step p r hp f k v ',' _ ⟨_, Or.inl rfl⟩]
        have hlen : (m' :: ms').length ≤ f := by simpa using hf
        rw [if_neg (by decide), if_pos rfl, ih (by simp) f hlen]

theorem length_le_renderMembers {α : Type} (r : α → List Char) (ms : List (String × α)) :
    ms.length ≤ (renderMembers r ms).length := by
  induction ms with
  | nil => simp
  | cons m ms ih =>
    obtain ⟨k, v⟩ := m
    cases ms with
    | nil => simp [renderMembers, renderString]
    | cons m' ms' =>
      simp only [renderMembers, renderString, List.length_cons, List.length_append] at ih ⊢
      omega

theorem renderMembers_head {α : Type} (r : α → List Char) (ms : List (String × α))
    (hne : ms ≠ []) : ∃ tl, renderMembers r ms = '"' :: tl := by
  cases ms with
  | nil => exact absurd rfl hne
  | cons m ms =>
    obtain ⟨k, v⟩ := m
    cases ms with
    | nil => exact ⟨_, by simp [renderMembers, renderString]; rfl⟩
    | cons m' ms' => exact ⟨_, by simp [renderMembers, renderString]; rfl⟩

theorem readObject_renderObject {α : Type} (p : List Char → Option (α × List Char))
    (r : α → List Char) (hp : ∀ v t, Delimited t → p (r v ++ t) = some (v, t))
    (ms : List (String × α)) (t : List Char) :
    readObject p (renderObject r ms ++ t) = some (ms, t) := by
  by_cases hne : ms = []
  · subst hne
    simp [renderObject, renderMembers, readObject]
  · obtain ⟨tl, htl⟩ := renderMembers_head r ms hne
    have hlen := length_le_renderMembers r ms
    have hread := readMembers_renderMembers p r hp ms hne
      (renderMembers r ms ++ '}' :: t).length (by simp; omega) t
    simp only [renderObject, List.cons_append, List.append_assoc, List.singleton_append,
      readObject, if_true]
    rw [htl] at hread ⊢
    simp only [List.cons_append] at hread ⊢
    rw [if_neg (by decide)]
    exact hread

theorem renderScalar_head (v : Scalar) : ∃ c cs, renderScalar v = c :: cs ∧ c ≠ '{' := by
  cases v with
  | str s => exact ⟨'"', _, rfl, by decide⟩
  | num i =>
    obtain ⟨d, ds, hd, hdig⟩ := formatNat_head i.natAbs
    simp only [renderScalar, formatInt]
    split_ifs
    · exact ⟨'-', _, rfl, by decide⟩
    · refine ⟨d, ds, hd, ?_⟩
      rintro rfl
      exact absurd hdig (by decide)

theorem readValue_renderValue (v : Value) (t : List Char) (ht : Delimited t) :
    readValue (renderValue v ++ t) = some (v, t) := by
  cases v with
  | scalar s =>
    obtain ⟨c, cs, hc, hne⟩ := renderScalar_head s
    have := readScalar_renderScalar s t ht.noDigitAhead
    simp only [renderValue]
    rw [hc] at this ⊢
    simp only [List.cons_append] at this ⊢
    rw [readValue, if_neg hne, this]
  | object ms =>
    have := readObject_renderObject readScalar renderScalar
      (fun v t ht => readScalar_renderScalar v t ht.noDigitAhead) ms t
    simp only [renderValue]
    simp only [renderObject, List.cons_append] at this ⊢
    rw [readValue, if_pos rfl, this]

/-- Decoding the text of a document gives the document back. -/
theorem decode_render (d : Document) : decode (render d) = some d := by
  have := readObject_renderObject readValue renderValue readValue_renderValue d []
  simp only [List.append_nil] at this
  simp [decode, render, this]

theorem marshalMap_singleton (k : String) (v : Value) : marshalMap [(k, v)] = render [(k, v)] := by
  simp [marshalMap]

theorem marshalMap_message_user (a b : Value) :
    marshalMap [("message", a), ("user", b)] = render [("message", a), ("user", b)] := by
  have h : keyLE ("message", a) ("user", b) := by
    show "message".data ≤ "user".data
    decide
  simp [marshalMap, List.insertionSort, List.orderedInsert, h]

/-- Rendering is injective: two documents with the same text are equal. -/
theorem render_injective {d e : Document} (h : render d = render e) : d = e := by
  have := decode_render d
  rw [h, decode_render] at this
  exact (Option.some.inj this).symm


/-! ## Lemmas: the paths through the handler -/

theorem errorResponse_body (code : Int) (msg : String) :
    (errorResponse code msg).1.Body = render [("error", .scalar (.str msg))] := by
  simp [errorResponse, marshalMap_singleton]

theorem decode_errorResponse (code : Int) (msg : String) :
    decode (errorResponse code msg).1.Body = some [("error", .scalar (.str msg))] := by
  rw [errorResponse_body, decode_render]

theorem HandleRequest_of_name_empty (env : Env) (req : Request) (h : req.Name = "") :
    HandleRequest env req = .returning (errorResponse 400 "name is required") [] := by
  simp [HandleRequest, h]

theorem HandleRequest_of_phone_empty (env : Env) (req : Request) (hn : req.Name ≠ "")
    (hp : req.PhoneNumber = "") :
    HandleRequest env req = .returning (errorResponse 400 "phone_number is required") [] := by
  simp [HandleRequest, hn, hp]

theorem HandleRequest_of_table_empty (env : Env) (req : Request) (hn : req.Name ≠ "")
    (hp : req.PhoneNumber ≠ "") (ht : env.getenv "USERS_TABLE_NAME" = "") :
    HandleRequest env req =
      .returning (errorResponse 500 "USERS_TABLE_NAME environment variable not set") [] := by
  simp [HandleRequest, hn, hp, ht]

theorem HandleRequest_of_put_failed (env : Env) (req : Request) (d : String)
    (hn : req.Name ≠ "") (hp : req.PhoneNumber ≠ "")
    (ht : env.getenv "USERS_TABLE_NAME" ≠ "")
    (hput : env.putItem { TableName := env.getenv "USERS_TABLE_NAME",
                          Item := buildItem (newUser env req) } = some d) :
    HandleRequest env req =
      .returning (errorResponse 500 ("failed to save user: " ++ d))
        [{ TableName := env.getenv "USERS_TABLE_NAME", Item := buildItem (newUser env req) }] := by
  simp [HandleRequest, hn, hp, ht, hput]

theorem HandleRequest_of_put_ok (env : Env) (req : Request)
    (hn : req.Name ≠ "") (hp : req.PhoneNumber ≠ "")
    (ht : env.getenv "USERS_TABLE_NAME" ≠ "")
    (hput : env.putItem { TableName := env.getenv "USERS_TABLE_NAME",
                          Item := buildItem (newUser env req) } = none) :
    HandleRequest env req =
      .returning
        ({ StatusCode := 201
           Headers := [("Content-Type", "application/json")]
           Body := render [("message", .scalar (.str "User created successfully")),
                           ("user", userValue (newUser env req))] }, none)
        [{ TableName := env.getenv "USERS_TABLE_NAME", Item := buildItem (newUser env req) }] := by
  simp [HandleRequest, hn, hp, ht, hput, marshalMap_message_user]

theorem getenv_of_set (env : Env) (key v : String) (h : env.environ key = some v) :
    env.getenv key = v := by
  simp [Env.getenv, h]

/-- The input of the one `PutItem` call the handler can make. -/
theorem puts_eq (env : Env) (req : Request) :
    (HandleRequest env req).puts =
      if req.Name ≠ "" ∧ req.PhoneNumber ≠ "" ∧ env.getenv "USERS_TABLE_NAME" ≠ "" then
        [{ TableName := env.getenv "USERS_TABLE_NAME", Item := buildItem (newUser env req) }]
      else [] := by
  by_cases hn : req.Name = ""
  · simp [HandleRequest_of_name_empty env req hn, hn, Outcome.returning]
  by_cases hp : req.PhoneNumber = ""
  · simp [HandleRequest_of_phone_empty env req hn hp, hp, Outcome.returning]
  by_cases ht : env.getenv "USERS_TABLE_NAME" = ""
  · simp [HandleRequest_of_table_empty env req hn hp ht, ht, Outcome.returning]
  cases hput : env.putItem { TableName := env.getenv "USERS_TABLE_NAME",
                             Item := buildItem (newUser env req) } with
  | none => simp [HandleRequest_of_put_ok env req hn hp ht hput, hn, hp, ht, Outcome.returning]
  | some d =>
    simp [HandleRequest_of_put_failed env req d hn hp ht hput, hn, hp, ht, Outcome.returning]

theorem status_eq (env : Env) (req : Request) :
    (HandleRequest env req).resp.StatusCode =
      if req.Name = "" ∨ req.PhoneNumber = "" then 400
      else if env.getenv "USERS_TABLE_NAME" = "" then 500
      else if env.putItem { TableName := env.getenv "USERS_TABLE_NAME",
                            Item := buildItem (newUser env req) } = none then 201
      else 500 := by
  by_cases hn : req.Name = ""
  · simp [HandleRequest_of_name_empty env req hn, hn, Outcome.returning, errorResponse]
  by_cases hp : req.PhoneNumber = ""
  · simp [HandleRequest_of_phone_empty env req hn hp, hp, Outcome.returning, errorResponse]
  by_cases ht : env.getenv "USERS_TABLE_NAME" = ""
  · simp [HandleRequest_of_table_empty env req hn hp ht, hn, hp, ht, Outcome.returning,
      errorResponse]
  cases hput : env.putItem { TableName := env.getenv "USERS_TABLE_NAME",
                             Item := buildItem (newUser env req) } with
  | none => simp [HandleRequest_of_put_ok env req hn hp ht hput, hn, hp, ht, Outcome.returning]
  | some d =>
    simp [HandleRequest_of_put_failed env req d hn hp ht hput, hn, hp, ht, Outcome.returning,
      errorResponse]

/-- A 201 answer is given only on the path on which the put succeeded. -/
theorem created_iff (env : Env) (req : Request) :
    (HandleRequest env req).resp.StatusCode = 201 ↔
      req.Name ≠ "" ∧ req.PhoneNumber ≠ "" ∧ env.getenv "USERS_TABLE_NAME" ≠ "" ∧
      env.putItem { TableName := env.getenv "USERS_TABLE_NAME",
                    Item := buildItem (newUser env req) } = none := by
  rw [status_eq]
  by_cases hn : req.Name = ""
  · simp [hn]
  by_cases hp : req.PhoneNumber = ""
  · simp [hp]
  by_cases ht : env.getenv "USERS_TABLE_NAME" = ""
  · simp [hn, hp, ht]
  by_cases hput : env.putItem { TableName := env.getenv "USERS_TABLE_NAME",
                                Item := buildItem (newUser env req) } = none
  · simp [hn, hp, ht, hput]
  · simp [hn, hp, ht, hput]

/-- The body of a 201 answer, decoded. -/
theorem decode_created (env : Env) (req : Request)
    (h : (HandleRequest env req).resp.StatusCode = 201) :
    (HandleRequest env req).resp.Body =
        render [("message", .scalar (.str "User created successfully")),
                ("user", userValue (newUser env req))] ∧
      decode (HandleRequest env req).resp.Body =
        some [("message", .scalar (.str "User created successfully")),
              ("user", userValue (newUser env req))] := by
  obtain ⟨hn, hp, ht, hput⟩ := (created_iff env req).mp h
  rw [HandleRequest_of_put_ok env req hn hp ht hput]
  exact ⟨rfl, decode_render _⟩

theorem userField_created (env : Env) (req : Request)
    (h : (HandleRequest env req).resp.StatusCode = 201) (k : String) :
    userField (HandleRequest env req).resp.Body k = (userValue (newUser env req)).member k := by
  simp [userField, bodyField, (decode_created env req h).2, Document.field]

theorem userKeys_created (env : Env) (req : Request)
    (h : (HandleRequest env req).resp.StatusCode = 201) :
    userKeys (HandleRequest env req).resp.Body = (userValue (newUser env req)).keys := by
  simp [userKeys, bodyField, (decode_created env req h).2, Document.field]

theorem userValue_member (u : User) :
    (userValue u).member "id" = some (.str u.ID) ∧
    (userValue u).member "name" = some (.str u.Name) ∧
    (userValue u).member "phone_number" = some (.str u.PhoneNumber) ∧
    (userValue u).member "status" = some (.str u.Status) ∧
    (userValue u).member "created_at" = some (.str u.CreatedAt) ∧
    (userValue u).member "email" = (if u.Email = "" then none else some (.str u.Email)) ∧
    (userValue u).member "age" = (if u.Age = 0 then none else some (.num u.Age)) := by
  unfold userValue
  by_cases he : u.Email = "" <;> by_cases ha : u.Age = 0 <;>
    simp [Value.member, he, ha, List.find?]

theorem userValue_keys (u : User) :
    (userValue u).keys =
      ["id", "name", "phone_number"] ++ (if u.Email = "" then [] else ["email"]) ++
        (if u.Age = 0 then [] else ["age"]) ++ ["status", "created_at"] := by
  unfold userValue
  by_cases he : u.Email = "" <;> by_cases ha : u.Age = 0 <;> simp [Value.keys, he, ha]

/-! ## Lemmas: the prepared item -/

theorem buildItem_get (u : User) :
    (buildItem u).get "id" = some (.S u.ID) ∧
    (buildItem u).get "name" = some (.S u.Name) ∧
    (buildItem u).get "phone_number" = some (.S u.PhoneNumber) ∧
    (buildItem u).get "status" = some (.S u.Status) ∧
    (buildItem u).get "created_at" = some (.S u.CreatedAt) ∧
    (buildItem u).get "email" = (if u.Email = "" then none else some (.S u.Email)) ∧
    (buildItem u).get "age" = (if 0 < u.Age then some (.N (sprintfD u.Age)) else none) := by
  unfold buildItem
  by_cases he : u.Email = "" <;> by_cases ha : 0 < u.Age <;>
    simp [Item.get, Item.set, he, ha, List.find?, List.filter]

theorem buildItem_keys (u : User) :
    (buildItem u).keys =
      ["id", "phone_number", "name", "status", "created_at"] ++
        (if u.Email = "" then [] else ["email"]) ++ (if 0 < u.Age then ["age"] else []) := by
  unfold buildItem
  by_cases he : u.Email = "" <;> by_cases ha : 0 < u.Age <;>
    simp [Item.keys, Item.set, he, ha, List.filter]

theorem buildItem_mem_keys (u : User) (k : String) :
    k ∈ (buildItem u).keys ↔
      k ∈ ["id", "name", "phone_number", "status", "created_at"] ∨
      (k = "email" ∧ u.Email ≠ "") ∨ (k = "age" ∧ 0 < u.Age) := by
  rw [buildItem_keys]
  simp only [List.mem_append, List.mem_cons, List.mem_singleton, List.not_mem_nil, or_false]
  have h1 : k ∈ (if u.Email = "" then [] else ["email"]) ↔ (k = "email" ∧ u.Email ≠ "") := by
    by_cases he : u.Email = "" <;> simp [he]
  have h2 : k ∈ (if 0 < u.Age then ["age"] else []) ↔ (k = "age" ∧ 0 < u.Age) := by
    by_cases ha : 0 < u.Age <;> simp [ha]
  rw [h1, h2]
  generalize (k = "email" ∧ u.Email ≠ "") = A
  generalize (k = "age" ∧ 0 < u.Age) = B
  generalize (k = "id") = a
  generalize (k = "phone_number") = b
  generalize (k = "name") = c
  generalize (k = "status") = d
  generalize (k = "created_at") = e
  clear h1 h2
  tauto

theorem digitChar_eq : ∀ d, d < 10 → digitChar d = Nat.digitChar d := by
  decide

theorem decimalAux_eq_toDigitsCore (fuel n : Nat) (acc : List Char) :
    decimalAux fuel n acc = Nat.toDigitsCore 10 fuel n acc := by
  induction fuel generalizing n acc with
  | zero => simp [decimalAux, Nat.toDigitsCore]
  | succ f ih =>
    simp only [decimalAux, Nat.toDigitsCore]
    by_cases h : n < 10
    · have h0 : n / 10 = 0 := by omega
      have hm : n % 10 = n := by omega
      simp [h, h0, hm, digitChar_eq n h]
    · have h0 : n / 10 ≠ 0 := by omega
      simp [h, h0, ih, digitChar_eq (n % 10) (Nat.mod_lt _ (by decide))]

/-- The decimal rendering agrees with the one of Lean's library. -/
theorem formatNat_eq_repr (n : Nat) : String.mk (formatNat n) = Nat.repr n := by
  simp [formatNat, decimalAux_eq_toDigitsCore, Nat.repr, Nat.toDigits, List.asString]

theorem sprintfD_of_pos (i : Int) (h : 0 < i) : sprintfD i = Nat.repr i.toNat := by
  have hn : ¬ i < 0 := by omega
  have : i.natAbs = i.toNat := by omega
  simp [sprintfD, formatInt, hn, this, formatNat_eq_repr]

set_option maxRecDepth 20000

/-! ## Lemmas: the models of the library calls at known values -/

/-- The timestamp model at the epoch, on a leap day, at the end of a year, and at the instant
of the timestamp the repository's tests use. -/
theorem formatRFC3339_samples :
    formatRFC3339 (civilOfUnix 0) = "1970-01-01T00:00:00Z" ∧
    formatRFC3339 (civilOfUnix 951868799) = "2000-02-29T23:59:59Z" ∧
    formatRFC3339 (civilOfUnix 1735689599) = "2024-12-31T23:59:59Z" ∧
    formatRFC3339 (civilOfUnix 1763380800) = "2025-11-17T12:00:00Z" := by
  decide

/-- The string encoder on the characters it escapes. -/
theorem renderString_samples :
    String.mk (renderString "a\"b\\c\n<&>") = "\"a\\\"b\\\\c\\n\\u003c\\u0026\\u003e\"" ∧
    String.mk (renderString "João") = "\"João\"" := by
  decide

/-- Which optional members the `"user"` object of a 201 body has: `"email"` exactly when the
request's email is not empty, `"age"` exactly when the request's age is not zero. -/
theorem created_optional_members (env : Env) (req : Request)
    (h : (HandleRequest env req).resp.StatusCode = 201) :
    ("email" ∈ userKeys (HandleRequest env req).resp.Body ↔ req.Email ≠ "") ∧
    ("age" ∈ userKeys (HandleRequest env req).resp.Body ↔ req.Age ≠ 0) := by
  rw [userKeys_created env req h, userValue_keys]
  have he' : (newUser env req).Email = req.Email := rfl
  have ha' : (newUser env req).Age = req.Age := rfl
  rw [he', ha']
  by_cases he : req.Email = "" <;> by_cases ha : req.Age = 0 <;> simp [he, ha]

/-! ## The claims -/

/-- C2: a request whose name is the empty string is answered with status 400 and the body
`{"error":"name is required"}`, whatever its other fields (an empty phone number included),
whatever the environment and whatever the store would do. -/
theorem empty_name_rejected (env : Env) (req : Request) (h : req.Name = "") :
    (HandleRequest env req).resp.StatusCode = 400 ∧
    (HandleRequest env req).resp.Body = "\x7b\"error\":\"name is required\"\x7d" ∧
    decode (HandleRequest env req).resp.Body =
      some [("error", .scalar (.str "name is required"))] := by
  rw [HandleRequest_of_name_empty env req h]
  refine ⟨rfl, by decide, ?_⟩
  exact decode_errorResponse 400 "name is required"

/-- C2 at the empty request, in an environment whose puts would fail: the name error, not the
phone number error, is returned. -/
theorem empty_name_rejected_witness :
    emptyRequest.Name = "" ∧ emptyRequest.PhoneNumber = "" ∧
    (HandleRequest failingEnv emptyRequest).resp.StatusCode = 400 ∧
    (HandleRequest failingEnv emptyRequest).resp.Body =
      "\x7b\"error\":\"name is required\"\x7d" ∧
    decode (HandleRequest failingEnv emptyRequest).resp.Body =
      some [("error", .scalar (.str "name is required"))] :=
  ⟨rfl, rfl, empty_name_rejected failingEnv emptyRequest rfl⟩

/-- C3: a request whose name is not empty and whose phone number is the empty string is
answered with status 400 and the body `{"error":"phone_number is required"}`, whatever its
email and age, the environment and the store. -/
theorem empty_phone_rejected (env : Env) (req : Request) (hn : req.Name ≠ "")
    (hp : req.PhoneNumber = "") :
    (HandleRequest env req).resp.StatusCode = 400 ∧
    (HandleRequest env req).resp.Body = "\x7b\"error\":\"phone_number is required\"\x7d" ∧
    decode (HandleRequest env req).resp.Body =
      some [("error", .scalar (.str "phone_number is required"))] := by
  rw [HandleRequest_of_phone_empty env req hn hp]
  refine ⟨rfl, by decide, ?_⟩
  exact decode_errorResponse 400 "phone_number is required"

/-- C3 at the request of the test table that has a name and no phone number. -/
theorem empty_phone_rejected_witness :
    noPhoneRequest.Name ≠ "" ∧ noPhoneRequest.PhoneNumber = "" ∧
    (HandleRequest sampleEnv noPhoneRequest).resp.StatusCode = 400 ∧
    (HandleRequest sampleEnv noPhoneRequest).resp.Body =
      "\x7b\"error\":\"phone_number is required\"\x7d" ∧
    decode (HandleRequest sampleEnv noPhoneRequest).resp.Body =
      some [("error", .scalar (.str "phone_number is required"))] :=
  ⟨by decide, rfl, empty_phone_rejected sampleEnv noPhoneRequest (by decide) rfl⟩

/-- C6: when name and phone number are not empty and `USERS_TABLE_NAME` is unset or set to the
empty string, the answer is status 500 with the body
`{"error":"USERS_TABLE_NAME environment variable not set"}`, and no put is issued. -/
theorem missing_table_name (env : Env) (req : Request) (hn : req.Name ≠ "")
    (hp : req.PhoneNumber ≠ "")
    (ht : env.environ "USERS_TABLE_NAME" = none ∨ env.environ "USERS_TABLE_NAME" = some "") :
    (HandleRequest env req).resp.StatusCode = 500 ∧
    (HandleRequest env req).resp.Body =
      "\x7b\"error\":\"USERS_TABLE_NAME environment variable not set\"\x7d" ∧
    decode (HandleRequest env req).resp.Body =
      some [("error", .scalar (.str "USERS_TABLE_NAME environment variable not set"))] ∧
    (HandleRequest env req).puts = [] := by
  have hget : env.getenv "USERS_TABLE_NAME" = "" := by
    rcases ht with h | h <;> simp [Env.getenv, h]
  rw [HandleRequest_of_table_empty env req hn hp hget]
  refine ⟨rfl, by decide, ?_, rfl⟩
  exact decode_errorResponse 500 "USERS_TABLE_NAME environment variable not set"

/-- C6 at the sample request with the variable unset. -/
theorem missing_table_name_witness :
    sampleRequest.Name ≠ "" ∧ sampleRequest.PhoneNumber ≠ "" ∧
    unconfiguredEnv.environ "USERS_TABLE_NAME" = none ∧
    (HandleRequest unconfiguredEnv sampleRequest).resp.StatusCode = 500 ∧
    (HandleRequest unconfiguredEnv sampleRequest).resp.Body =
      "\x7b\"error\":\"USERS_TABLE_NAME environment variable not set\"\x7d" ∧
    decode (HandleRequest unconfiguredEnv sampleRequest).resp.Body =
      some [("error", .scalar (.str "USERS_TABLE_NAME environment variable not set"))] ∧
    (HandleRequest unconfiguredEnv sampleRequest).puts = [] :=
  ⟨by decide, by decide, rfl,
    missing_table_name unconfiguredEnv sampleRequest (by decide) (by decide) (Or.inl rfl)⟩

/-- C7: when name and phone number are not empty, the table name is configured and the put of
the prepared item fails with description `d`, the answer is status 500 and its body is the
JSON object whose only member is `"error"`, holding `"failed to save user: "` followed by
`d`. -/
theorem put_failure_reported (env : Env) (req : Request) (table d : String)
    (hn : req.Name ≠ "") (hp : req.PhoneNumber ≠ "")
    (ht : env.environ "USERS_TABLE_NAME" = some table) (hne : table ≠ "")
    (hput : env.putItem { TableName := table, Item := buildItem (newUser env req) } = some d) :
    (HandleRequest env req).resp.StatusCode = 500 ∧
    (HandleRequest env req).resp.Body =
      render [("error", .scalar (.str ("failed to save user: " ++ d)))] ∧
    decode (HandleRequest env req).resp.Body =
      some [("error", .scalar (.str ("failed to save user: " ++ d)))] := by
  have hget := getenv_of_set env _ _ ht
  rw [HandleRequest_of_put_failed env req d hn hp (by rw [hget]; exact hne)
    (by rw [hget]; exact hput)]
  exact ⟨rfl, errorResponse_body _ _, decode_errorResponse _ _⟩

/-- C7 at the sample request against a store that rejects every put. -/
theorem put_failure_reported_witness :
    (HandleRequest failingEnv sampleRequest).resp.StatusCode = 500 ∧
    (HandleRequest failingEnv sampleRequest).resp.Body =
      render [("error", .scalar (.str
        ("failed to save user: " ++ "ResourceNotFoundException: no such table")))] ∧
    decode (HandleRequest failingEnv sampleRequest).resp.Body =
      some [("error", .scalar (.str
        ("failed to save user: " ++ "ResourceNotFoundException: no such table")))] :=
  put_failure_reported failingEnv sampleRequest "test-users-table"
    "ResourceNotFoundException: no such table" (by decide) (by decide) rfl (by decide) rfl

/-- C1: when name and phone number are not empty, `USERS_TABLE_NAME` is set to a non-empty
value and the put of the prepared item succeeds, `HandleRequest` returns a nil error and a
response with status 201, the single header `Content-Type: application/json`, and a body that
is the JSON object with the members `"message"`, equal to `"User created successfully"`, and
`"user"`, an object whose name and phone number are the request's, whose status is `"active"`,
whose id is the generated identifier and whose created_at is the RFC 3339 rendering in UTC of
the clock reading. -/
theorem created_response (env : Env) (req : Request) (table : String)
    (hn : req.Name ≠ "") (hp : req.PhoneNumber ≠ "")
    (ht : env.environ "USERS_TABLE_NAME" = some table) (hne : table ≠ "")
    (hput : env.putItem { TableName := table, Item := buildItem (newUser env req) } = none) :
    (HandleRequest env req).err = none ∧
    (HandleRequest env req).resp.StatusCode = 201 ∧
    (HandleRequest env req).resp.Headers = [("Content-Type", "application/json")] ∧
    (∃ user, decode (HandleRequest env req).resp.Body =
      some [("message", .scalar (.str "User created successfully")), ("user", .object user)]) ∧
    userField (HandleRequest env req).resp.Body "name" = some (.str req.Name) ∧
    userField (HandleRequest env req).resp.Body "phone_number" = some (.str req.PhoneNumber) ∧
    userField (HandleRequest env req).resp.Body "status" = some (.str "active") ∧
    userField (HandleRequest env req).resp.Body "id" = some (.str env.newUUID) ∧
    userField (HandleRequest env req).resp.Body "created_at" =
      some (.str (formatRFC3339 (civilOfUnix env.now))) := by
  have hget := getenv_of_set env _ _ ht
  have hpath := HandleRequest_of_put_ok env req hn hp (by rw [hget]; exact hne)
    (by rw [hget]; exact hput)
  have h201 : (HandleRequest env req).resp.StatusCode = 201 := by rw [hpath]; rfl
  have hm := userValue_member (newUser env req)
  refine ⟨by rw [hpath]; rfl, h201, by rw [hpath]; rfl, ⟨_, (decode_created env req h201).2⟩,
    ?_, ?_, ?_, ?_, ?_⟩ <;> rw [userField_created env req h201]
  · exact hm.2.1
  · exact hm.2.2.1
  · exact hm.2.2.2.1
  · exact hm.1
  · exact hm.2.2.2.2.1

/-- C1 at the request of the spec's example, with the body spelled out. -/
theorem created_response_witness :
    ((HandleRequest sampleEnv sampleRequest).err = none ∧
    (HandleRequest sampleEnv sampleRequest).resp.StatusCode = 201 ∧
    (HandleRequest sampleEnv sampleRequest).resp.Headers =
      [("Content-Type", "application/json")] ∧
    (∃ user, decode (HandleRequest sampleEnv sampleRequest).resp.Body =
      some [("message", .scalar (.str "User created successfully")), ("user", .object user)]) ∧
    userField (HandleRequest sampleEnv sampleRequest).resp.Body "name" =
      some (.str sampleRequest.Name) ∧
    userField (HandleRequest sampleEnv sampleRequest).resp.Body "phone_number" =
      some (.str sampleRequest.PhoneNumber) ∧
    userField (HandleRequest sampleEnv sampleRequest).resp.Body "status" =
      some (.str "active") ∧
    userField (HandleRequest sampleEnv sampleRequest).resp.Body "id" =
      some (.str sampleEnv.newUUID) ∧
    userField (HandleRequest sampleEnv sampleRequest).resp.Body "created_at" =
      some (.str (formatRFC3339 (civilOfUnix sampleEnv.now)))) ∧
    (HandleRequest sampleEnv sampleRequest).resp.Body =
      "\x7b\"message\":\"User created successfully\",\"user\":\x7b\"id\":\"123e4567-e89b-42d3-a456-426614174000\",\"name\":\"Ana\",\"phone_number\":\"+5511999999999\",\"status\":\"active\",\"created_at\":\"2025-11-17T12:00:00Z\"\x7d\x7d" :=
  ⟨created_response sampleEnv sampleRequest "test-users-table" (by decide) (by decide) rfl
    (by decide) rfl, by decide⟩

/-- C4, at a request whose age is -1: the answer is 201 and the `"user"` object of its body has
an `"age"` member, holding -1, although the age is not positive; the item that was put has no
`age` attribute. -/
theorem negative_age_in_body :
    (HandleRequest sampleEnv negativeAgeRequest).resp.StatusCode = 201 ∧
    ¬ 0 < negativeAgeRequest.Age ∧
    (HandleRequest sampleEnv negativeAgeRequest).resp.Body =
      "\x7b\"message\":\"User created successfully\",\"user\":\x7b\"id\":\"123e4567-e89b-42d3-a456-426614174000\",\"name\":\"Ana\",\"phone_number\":\"+5511999999999\",\"age\":-1,\"status\":\"active\",\"created_at\":\"2025-11-17T12:00:00Z\"\x7d\x7d" ∧
    userField (HandleRequest sampleEnv negativeAgeRequest).resp.Body "age" = some (.num (-1)) ∧
    "age" ∈ userKeys (HandleRequest sampleEnv negativeAgeRequest).resp.Body ∧
    ∀ p ∈ (HandleRequest sampleEnv negativeAgeRequest).puts, p.Item.get "age" = none := by
  have h201 : (HandleRequest sampleEnv negativeAgeRequest).resp.StatusCode = 201 := by decide
  refine ⟨h201, by decide, by decide, ?_, ?_, by decide⟩
  · rw [userField_created _ _ h201]
    decide
  · rw [userKeys_created _ _ h201]
    decide

/-- C5: the item of every put the handler issues holds the string attributes `id`, `name`,
`phone_number`, `status` and `created_at`, the name and the phone number being the request's
and not empty; it holds a string attribute `email`, with the request's value, exactly when the
request's email is not empty; it holds a number attribute `age`, with the decimal rendering of
the request's age, exactly when that age is greater than zero; and it holds nothing else. -/
theorem put_item_attributes (env : Env) (req : Request) (p : PutItemInput)
    (hmem : p ∈ (HandleRequest env req).puts) :
    req.Name ≠ "" ∧ req.PhoneNumber ≠ "" ∧
    p.Item.get "id" = some (.S env.newUUID) ∧
    p.Item.get "name" = some (.S req.Name) ∧
    p.Item.get "phone_number" = some (.S req.PhoneNumber) ∧
    p.Item.get "status" = some (.S "active") ∧
    p.Item.get "created_at" = some (.S (formatRFC3339 (civilOfUnix env.now))) ∧
    p.Item.get "email" = (if req.Email = "" then none else some (.S req.Email)) ∧
    p.Item.get "age" = (if 0 < req.Age then some (.N (Nat.repr req.Age.toNat)) else none) ∧
    p.Item.keys.Nodup ∧
    ∀ k, k ∈ p.Item.keys ↔
      k ∈ ["id", "name", "phone_number", "status", "created_at"] ∨
      (k = "email" ∧ req.Email ≠ "") ∨ (k = "age" ∧ 0 < req.Age) := by
  rw [puts_eq] at hmem
  split_ifs at hmem with hc
  swap
  · simp at hmem
  simp only [List.mem_singleton] at hmem
  subst hmem
  obtain ⟨hid, hname, hphone, hstatus, hcreated, hemail, hage⟩ := buildItem_get (newUser env req)
  have hkeys := buildItem_keys (newUser env req)
  refine ⟨hc.1, hc.2.1, hid, hname, hphone, hstatus, hcreated, hemail, ?_, ?_, ?_⟩
  · show (buildItem (newUser env req)).get "age" = _
    rw [hage]
    by_cases ha : 0 < req.Age
    · have : 0 < (newUser env req).Age := ha
      simp only [if_pos this, if_pos ha, sprintfD_of_pos _ this]
      rfl
    · have : ¬ 0 < (newUser env req).Age := ha
      simp only [if_neg this, if_neg ha]
  · show (buildItem (newUser env req)).keys.Nodup
    rw [hkeys]
    by_cases he : (newUser env req).Email = "" <;> by_cases ha : 0 < (newUser env req).Age <;>
      simp [he, ha]
  · intro k
    exact buildItem_mem_keys (newUser env req) k

/-- C5 at a request with every field supplied. -/
theorem put_item_attributes_witness :
    fullRequestPut ∈ (HandleRequest sampleEnv fullRequest).puts ∧
    fullRequestPut.Item.get "email" = some (.S "maria@example.com") ∧
    fullRequestPut.Item.get "age" = some (.N "30") ∧
    fullRequest.Name ≠ "" ∧ fullRequest.PhoneNumber ≠ "" ∧
    fullRequestPut.Item.get "id" = some (.S sampleEnv.newUUID) ∧
    fullRequestPut.Item.get "name" = some (.S fullRequest.Name) ∧
    fullRequestPut.Item.get "phone_number" = some (.S fullRequest.PhoneNumber) ∧
    fullRequestPut.Item.get "status" = some (.S "active") ∧
    fullRequestPut.Item.get "created_at" =
      some (.S (formatRFC3339 (civilOfUnix sampleEnv.now))) ∧
    fullRequestPut.Item.get "email" =
      (if fullRequest.Email = "" then none else some (.S fullRequest.Email)) ∧
    fullRequestPut.Item.get "age" =
      (if 0 < fullRequest.Age then some (.N (Nat.repr fullRequest.Age.toNat)) else none) ∧
    fullRequestPut.Item.keys.Nodup ∧
    ∀ k, k ∈ fullRequestPut.Item.keys ↔
      k ∈ ["id", "name", "phone_number", "status", "created_at"] ∨
      (k = "email" ∧ fullRequest.Email ≠ "") ∨ (k = "age" ∧ 0 < fullRequest.Age) :=
  ⟨by decide, by decide, by decide,
    put_item_attributes sampleEnv fullRequest fullRequestPut (by decide)⟩

/-- C8: whatever the request, the environment and the outcome of the put, `HandleRequest`
returns a nil error; when the status of its response is not 201 it is 400 or 500 and the body
is a JSON object whose only member is `"error"`, holding a string; and `errorResponse code msg`
returns, for every code and message, a nil error and a response with that status whose body is
the object whose only member is `"error"`, holding the message. -/
theorem never_hard_failure (env : Env) (req : Request) :
    (HandleRequest env req).err = none ∧
    ((HandleRequest env req).resp.StatusCode ≠ 201 →
      ((HandleRequest env req).resp.StatusCode = 400 ∨
        (HandleRequest env req).resp.StatusCode = 500) ∧
      ∃ msg, decode (HandleRequest env req).resp.Body = some [("error", .scalar (.str msg))]) ∧
    ∀ (code : Int) (msg : String),
      (errorResponse code msg).2 = none ∧
      (errorResponse code msg).1.StatusCode = code ∧
      (errorResponse code msg).1.Headers = [("Content-Type", "application/json")] ∧
      decode (errorResponse code msg).1.Body = some [("error", .scalar (.str msg))] := by
  refine ⟨?_, ?_, fun code msg => ⟨rfl, rfl, rfl, decode_errorResponse code msg⟩⟩
  · by_cases hn : req.Name = ""
    · rw [HandleRequest_of_name_empty env req hn]; rfl
    by_cases hp : req.PhoneNumber = ""
    · rw [HandleRequest_of_phone_empty env req hn hp]; rfl
    by_cases ht : env.getenv "USERS_TABLE_NAME" = ""
    · rw [HandleRequest_of_table_empty env req hn hp ht]; rfl
    cases hput : env.putItem { TableName := env.getenv "USERS_TABLE_NAME",
                               Item := buildItem (newUser env req) } with
    | none => rw [HandleRequest_of_put_ok env req hn hp ht hput]; rfl
    | some d => rw [HandleRequest_of_put_failed env req d hn hp ht hput]; rfl
  · by_cases hn : req.Name = ""
    · rw [HandleRequest_of_name_empty env req hn]
      exact fun _ => ⟨Or.inl rfl, _, decode_errorResponse _ _⟩
    by_cases hp : req.PhoneNumber = ""
    · rw [HandleRequest_of_phone_empty env req hn hp]
      exact fun _ => ⟨Or.inl rfl, _, decode_errorResponse _ _⟩
    by_cases ht : env.getenv "USERS_TABLE_NAME" = ""
    · rw [HandleRequest_of_table_empty env req hn hp ht]
      exact fun _ => ⟨Or.inr rfl, _, decode_errorResponse _ _⟩
    cases hput : env.putItem { TableName := env.getenv "USERS_TABLE_NAME",
                               Item := buildItem (newUser env req) } with
    | none =>
      rw [HandleRequest_of_put_ok env req hn hp ht hput]
      exact fun h => absurd rfl h
    | some d =>
      rw [HandleRequest_of_put_failed env req d hn hp ht hput]
      exact fun _ => ⟨Or.inr rfl, _, decode_errorResponse _ _⟩

/-- C9: an invocation issues at most one put: exactly one when name and phone number are not
empty and the table name is configured, none otherwise; the status is 201 exactly when that
one put was issued and succeeded; and with a status of 400 or 500 no put of the invocation
succeeded. -/
theorem at_most_one_put (env : Env) (req : Request) :
    (HandleRequest env req).puts.length ≤ 1 ∧
    ((HandleRequest env req).puts.length = 1 ↔
      req.Name ≠ "" ∧ req.PhoneNumber ≠ "" ∧ env.getenv "USERS_TABLE_NAME" ≠ "") ∧
    ((HandleRequest env req).puts = [] ↔
      ¬ (req.Name ≠ "" ∧ req.PhoneNumber ≠ "" ∧ env.getenv "USERS_TABLE_NAME" ≠ "")) ∧
    ((HandleRequest env req).resp.StatusCode = 201 ↔
      ∃ p, (HandleRequest env req).puts = [p] ∧ env.putItem p = none) ∧
    ((HandleRequest env req).resp.StatusCode = 400 ∨
      (HandleRequest env req).resp.StatusCode = 500 →
        (HandleRequest env req).successfulPuts env = []) := by
  have hputs := puts_eq env req
  have hcreated := created_iff env req
  by_cases hc : req.Name ≠ "" ∧ req.PhoneNumber ≠ "" ∧ env.getenv "USERS_TABLE_NAME" ≠ ""
  · rw [if_pos hc] at hputs
    refine ⟨by simp [hputs], by simp [hputs, hc], by simp [hputs, hc], ?_, ?_⟩
    · rw [hcreated, hputs]
      constructor
      · rintro ⟨-, -, -, h⟩
        exact ⟨_, rfl, h⟩
      · rintro ⟨p, hp, h⟩
        obtain rfl := List.singleton_inj.mp hp
        exact ⟨hc.1, hc.2.1, hc.2.2, h⟩
    · intro hst
      have hne : (HandleRequest env req).resp.StatusCode ≠ 201 := by
        rcases hst with h | h <;> rw [h] <;> decide
      have hfail : env.putItem { TableName := env.getenv "USERS_TABLE_NAME",
                                 Item := buildItem (newUser env req) } ≠ none :=
        fun h => hne (hcreated.mpr ⟨hc.1, hc.2.1, hc.2.2, h⟩)
      simp only [Outcome.successfulPuts, hputs]
      cases hput : env.putItem { TableName := env.getenv "USERS_TABLE_NAME",
                                 Item := buildItem (newUser env req) } with
      | none => exact absurd hput hfail
      | some d => simp [List.filter, hput]
  · rw [if_neg hc] at hputs
    refine ⟨by simp [hputs], by simp [hputs, hc], by simp [hputs, hc], ?_, ?_⟩
    · rw [hcreated, hputs]
      constructor
      · rintro ⟨h1, h2, h3, -⟩
        exact absurd ⟨h1, h2, h3⟩ hc
      · rintro ⟨p, hp, -⟩
        simp at hp
    · intro _
      simp [Outcome.successfulPuts, hputs]

/-- C10: when the answer is 201, one put was issued and it succeeded, and for each of `id`,
`name`, `phone_number`, `status` and `created_at` the string attribute of the item that was put
is the string the `"user"` object of the body holds under the same name; when the request's
email is not empty the same is true of `email`. -/
theorem stored_matches_returned (env : Env) (req : Request)
    (h201 : (HandleRequest env req).resp.StatusCode = 201) :
    ∃ p, (HandleRequest env req).puts = [p] ∧ env.putItem p = none ∧
      (∀ k ∈ ["id", "name", "phone_number", "status", "created_at"],
        ∃ s, p.Item.get k = some (.S s) ∧
          userField (HandleRequest env req).resp.Body k = some (.str s)) ∧
      p.Item.get "id" = some (.S env.newUUID) ∧
      (req.Email ≠ "" →
        ∃ s, p.Item.get "email" = some (.S s) ∧
          userField (HandleRequest env req).resp.Body "email" = some (.str s)) := by
  obtain ⟨hn, hp, ht, hput⟩ := (created_iff env req).mp h201
  have hputs := puts_eq env req
  rw [if_pos ⟨hn, hp, ht⟩] at hputs
  obtain ⟨iid, iname, iphone, istatus, icreated, iemail, -⟩ := buildItem_get (newUser env req)
  obtain ⟨uid, uname, uphone, ustatus, ucreated, uemail, -⟩ := userValue_member (newUser env req)
  refine ⟨_, hputs, hput, ?_, iid, ?_⟩
  · intro k hk
    rw [userField_created env req h201]
    simp only [List.mem_cons, List.mem_singleton, List.not_mem_nil, or_false] at hk
    rcases hk with rfl | rfl | rfl | rfl | rfl
    · exact ⟨_, iid, uid⟩
    · exact ⟨_, iname, uname⟩
    · exact ⟨_, iphone, uphone⟩
    · exact ⟨_, istatus, ustatus⟩
    · exact ⟨_, icreated, ucreated⟩
  · intro he
    have he' : (newUser env req).Email ≠ "" := he
    rw [userField_created env req h201]
    exact ⟨_, by rw [iemail, if_neg he'], by rw [uemail, if_neg he']⟩

/-- C10 at a request with every field supplied. -/
theorem stored_matches_returned_witness :
    (HandleRequest sampleEnv fullRequest).resp.StatusCode = 201 ∧
    fullRequest.Email ≠ "" ∧
    ∃ p, (HandleRequest sampleEnv fullRequest).puts = [p] ∧ sampleEnv.putItem p = none ∧
      (∀ k ∈ ["id", "name", "phone_number", "status", "created_at"],
        ∃ s, p.Item.get k = some (.S s) ∧
          userField (HandleRequest sampleEnv fullRequest).resp.Body k = some (.str s)) ∧
      p.Item.get "id" = some (.S sampleEnv.newUUID) ∧
      (fullRequest.Email ≠ "" →
        ∃ s, p.Item.get "email" = some (.S s) ∧
          userField (HandleRequest sampleEnv fullRequest).resp.Body "email" = some (.str s)) :=
  ⟨by decide, by decide, stored_matches_returned sampleEnv fullRequest (by decide)⟩

end AddUser
